import Mathlib

/-!
Verification of the versioned encrypted VFS core of the 3NWeb client library.

The development shallowly embeds the code of
ts-code/lib-common/exceptions/file.ts,
ts-code/lib-client/3nstorage/xsp-fs/file-node.ts and the XspFS / V /
ObjIdToPathMap module (src/unnamed/part_000).  Pure functions become Lean
functions; the JS objects become structures; thrown values become an
Except error type; JS number arguments that may be negative are Int;
byte arrays are List Nat.  Parts of the repository that the claims need
but whose file is not available (folder-node.ts, node-in-fs.ts, the
Broadcast helper) are modelled from the specification and marked
"Modelled from the spec" in their doc comments.
-/

set_option maxHeartbeats 1000000

namespace XspFsProof

/-! ## File exceptions (ts-code/lib-common/exceptions/file.ts) -/

/-- Embedding of the web3n FileException object: the fixed fields plus the
boolean flags that makeFileException, makeVersionMismatchExc and
makeNoAttrsExc may set.  An absent JS field is modelled as false / none. -/
structure FileException where
  runtimeException : Bool := false
  type : String := ""
  code : Option String := none
  path : String := ""
  cause : Option String := none
  alreadyExists : Bool := false
  notFound : Bool := false
  isDirectory : Bool := false
  notDirectory : Bool := false
  notFile : Bool := false
  notLink : Bool := false
  endOfFile : Bool := false
  busy : Bool := false
  ioError : Bool := false
  notEmpty : Bool := false
  opNotPermitted : Bool := false
  concurrentUpdate : Bool := false
  parsingError : Bool := false
  notImplemented : Bool := false
  isEndless : Bool := false
  versionMismatch : Bool := false
  attrsNotEnabledInFS : Bool := false
  storageClosed : Bool := false
  deriving Repr, DecidableEq

/-- Embedding of the frozen Code table (file.ts lines 17-34): the fifteen
exception-code properties the object defines. -/
structure ExceptionCodes where
  notFound : String
  alreadyExists : String
  notDirectory : String
  notFile : String
  notLink : String
  isDirectory : String
  notEmpty : String
  endOfFile : String
  opNotPermitted : String
  busy : String
  ioError : String
  concurrentUpdate : String
  parsingError : String
  notImplemented : String
  isEndless : String
  deriving Repr, DecidableEq

/-- The Code object of file.ts, field for field. -/
def Code : ExceptionCodes :=
  { notFound := "ENOENT"
    alreadyExists := "EEXIST"
    notDirectory := "ENOTDIR"
    notFile := "ENOTFILE"
    notLink := "not-link"
    isDirectory := "EISDIR"
    notEmpty := "ENOTEMPTY"
    endOfFile := "EEOF"
    opNotPermitted := "EPERM"
    busy := "EBUSY"
    ioError := "EIO"
    concurrentUpdate := "concurrent-update"
    parsingError := "parsing-error"
    notImplemented := "ENOSYS"
    isEndless := "is-endless" }

/-- The Code object of file.ts has no storageClosed property, so the JS
property access excCode.storageClosed performed by the XspFS module
(src/unnamed/part_000 lines 108-109 and 618-621) evaluates to undefined.
Undefined is modelled as none. -/
def storageClosedCodeAccess : Option String := none

/-- Embedding of makeFileException (file.ts lines 38-80): builds the base
exception object, then the if/else-if chain sets at most one flag, in the
order of the source. -/
def makeFileException (code : Option String) (path : String)
    (cause : Option String) : FileException :=
  let err : FileException :=
    { runtimeException := true, type := "file",
      code := code, path := path, cause := cause }
  if code = some Code.alreadyExists then { err with alreadyExists := true }
  else if code = some Code.notFound then { err with notFound := true }
  else if code = some Code.isDirectory then { err with isDirectory := true }
  else if code = some Code.notDirectory then { err with notDirectory := true }
  else if code = some Code.notFile then { err with notFile := true }
  else if code = some Code.notLink then { err with notLink := true }
  else if code = some Code.endOfFile then { err with endOfFile := true }
  else if code = some Code.busy then { err with busy := true }
  else if code = some Code.ioError then { err with ioError := true }
  else if code = some Code.notEmpty then { err with notEmpty := true }
  else if code = some Code.opNotPermitted then { err with opNotPermitted := true }
  else if code = some Code.concurrentUpdate then { err with concurrentUpdate := true }
  else if code = some Code.parsingError then { err with parsingError := true }
  else if code = some Code.notImplemented then { err with notImplemented := true }
  else if code = some Code.isEndless then { err with isEndless := true }
  else err

/-- Embedding of makeVersionMismatchExc (file.ts lines 112-120). -/
def makeVersionMismatchExc (path : String) : FileException :=
  { runtimeException := true, type := "file",
    code := none, path := path, versionMismatch := true }

/-- Thrown values: either a FileException or a plain JS Error carrying a
message (the new Error(...) throws of the source). -/
inductive Thrown where
  | fileExc (e : FileException)
  | jsError (msg : String)
  deriving Repr, DecidableEq

/-! ## Path parsing (src/unnamed/part_000 lines 38-40) -/

/-- Split of a character list on the slash character, accumulating the
current segment in reverse: the JS String split with separator slash. -/
def splitSegsAux : List Char → List Char → List String
  | [], cur => [String.mk cur.reverse]
  | c :: rest, cur =>
      if c = '/' then String.mk cur.reverse :: splitSegsAux rest []
      else splitSegsAux rest (c :: cur)

/-- JS path.split on slash over the characters of the path (structural, so
that concrete inputs evaluate inside proofs). -/
def splitOnSlash (path : String) : List String :=
  splitSegsAux path.data []

/-- One step of posix path normalization over an absolute base: an empty or
dot segment is dropped, a dot-dot segment removes the last kept segment
(dot-dot at the absolute root is dropped), any other segment is kept. -/
def resolveStep (acc : List String) (seg : String) : List String :=
  if seg = "" ∨ seg = "." then acc
  else if seg = ".." then acc.dropLast
  else acc ++ [seg]

/-- Embedding of splitPathIntoParts: posix.resolve of the path against the
root, split on slash, empty parts dropped.  posix.resolve performs posix
path normalization, which resolves dot and dot-dot segments, so the
embedding folds the normalization over the raw slash-split segments. -/
def splitPathIntoParts (path : String) : List String :=
  (splitOnSlash path).foldl resolveStep []

/-- Definition following the words of claim C8: the path is split on slash
and empty segments are discarded, while dot and dot-dot segments are kept
as ordinary segment names. -/
def splitPathClaimWords (path : String) : List String :=
  (splitOnSlash path).filter (fun part => part ≠ "")

/-! ## File node and its persistence (file-node.ts) -/

/-- Storage type of the filesystem (common.ts port): local, synced or
share.  FileNode branches on it when deciding whether versions are
reported. -/
inductive StorageType where
  | synced
  | local
  | share
  deriving Repr, DecidableEq

/-- The object held by the store for a file node: its version and the
decrypted payload content together with the attrs written into the
payload (ctime, mtime; the size attr always equals the content length
because every save writes both). -/
structure StoredObj where
  version : Nat
  content : List Nat
  ctime : Nat
  mtime : Nat
  deriving Repr, DecidableEq

/-- In-memory state of a FileNode: cached version, cached size, cached
attrs, and the object currently persisted in the store (none while
version is 0, before the first save). -/
structure FileState where
  name : String
  objId : String
  version : Nat
  size : Nat
  ctime : Nat
  mtime : Nat
  stored : Option StoredObj
  deriving Repr, DecidableEq

/-- File events published by broadcastEvent; savingObjInsideChange emits a
file-change with the node name as path and the new version. -/
inductive FileEvent where
  | fileChange (path : String) (newVersion : Nat)
  deriving Repr, DecidableEq

/-- The JS test typeof x is number and x negative, for an optional number
argument. -/
def isNegParam : Option Int → Bool
  | some v => decide (v < 0)
  | none => false

/-- Message of the plain Error thrown by FilePersistance.readBytes for a
negative bound. -/
def badParamMsg (name : String) (v : Int) : String :=
  "Parameter " ++ name ++ " has bad value: " ++ toString v

/-- Check of one optional bound of FilePersistance.readBytes: a supplied
negative number throws a plain Error. -/
def checkNonNegParam (name : String) : Option Int → Except Thrown Unit
  | some v => if v < 0 then .error (.jsError (badParamMsg name v)) else .ok ()
  | none => .ok ()

/-- Byte subrange [s, e) of the payload content
(ReadonlyPayload.readSomeContentBytes). -/
def sliceBytes (content : List Nat) (s e : Int) : List Nat :=
  (content.take e.toNat).drop s.toNat

/-- Embedding of FilePersistance.readBytes (file-node.ts lines 73-102):
reject supplied negative bounds, then read the payload size; an undefined
start means the whole content (the code then also resets end to size); a
start at or past the size yields no bytes; a supplied end is clamped to
size and must leave a nonempty range; otherwise the subrange is read.
The JS undefined bytes result is modelled as none. -/
def persistReadBytes (content : List Nat) (start0 end0 : Option Int) :
    Except Thrown (Option (List Nat)) := do
  let _ ← checkNonNegParam "start" start0
  let _ ← checkNonNegParam "end" end0
  let size : Int := content.length
  match start0 with
  | none =>
      if size ≤ 0 then pure none
      else pure (some (sliceBytes content 0 size))
  | some s =>
      if s ≥ size then pure none
      else
        match end0 with
        | some e0 =>
            if min size e0 ≤ s then pure none
            else pure (some (sliceBytes content s (min size e0)))
        | none => pure (some (sliceBytes content s size))

/-- Embedding of FileNode.setUpdatedState: commit version, size and attrs
into the cached node state. -/
def setUpdatedState (fs : FileState) (version : Nat) (size ctime mtime : Nat) :
    FileState :=
  { fs with version := version, size := size, ctime := ctime, mtime := mtime }

/-- Embedding of FileNode.readBytes (file-node.ts lines 218-239): get the
object from the store; on synced and local storages the object version is
reported and a node whose cached version is behind refreshes its cached
attrs and size from the payload; other storages report no version
(undefined, modelled none).  A node that was never persisted has no
stored object and the store rejects the getObj call. -/
def fileNodeReadBytes (stType : StorageType) (fs : FileState)
    (start0 end0 : Option Int) :
    Except Thrown (FileState × Option (List Nat) × Option Nat) := do
  match fs.stored with
  | none => .error (.jsError "Object is not in storage")
  | some obj =>
      if stType = .synced ∨ stType = .local then
        if fs.version < obj.version then do
          let bytes ← persistReadBytes obj.content start0 end0
          pure (setUpdatedState fs obj.version obj.content.length obj.ctime
            obj.mtime, bytes, some obj.version)
        else do
          let bytes ← persistReadBytes obj.content start0 end0
          pure (fs, bytes, some obj.version)
      else do
        let bytes ← persistReadBytes obj.content start0 end0
        pure (fs, bytes, none)

/-- Embedding of FileNode.savingObjInsideChange (file-node.ts lines
313-325): hand the encrypted stream to storage.saveObj, await the
new-size future, commit the new state with setUpdatedState, publish the
file-change event.  The encrypted stream is modelled by its outcome: an
error (the sink was finished with done(err), which fails the encryption
subscription) makes storage.saveObj reject, so nothing is committed and
no event is published; on success the committed content and the awaited
size are those of the finished sink.  The third component reports whether
the save was committed. -/
def savingObjInsideChange (fs : FileState) (newVersion : Nat)
    (ctime mtime : Nat) (encOutcome : Except Thrown (List Nat)) :
    FileState × List FileEvent × Bool :=
  match encOutcome with
  | .error _ => (fs, [], false)
  | .ok content =>
      let obj : StoredObj :=
        { version := newVersion, content := content, ctime := ctime,
          mtime := mtime }
      ({ fs with
          version := newVersion,
          size := content.length,
          ctime := ctime,
          mtime := mtime,
          stored := some obj },
        [.fileChange fs.name newVersion], true)

/-- Embedding of FileNode.save (file-node.ts lines 327-342), together with
the modelled NodeInFS.getParamsForUpdate of the spec (node-in-fs.ts is
not among the sources): the new version is the live version plus one and
the attrs copy gets mtime stamped to now; the whole payload is encrypted
and given to savingObjInsideChange, and the call returns the node version
after the commit. -/
def fileNodeSave (fs : FileState) (bytes : List Nat) (now : Nat) :
    FileState × Nat × List FileEvent :=
  let newVersion := fs.version + 1
  let r := savingObjInsideChange fs newVersion fs.ctime now (.ok bytes)
  (r.1, r.1.version, r.2.1)

/-- The version precondition of FileNode.startMakingSinkInsideChange: a
supplied currentVersion different from the live version. -/
def versionMismatchCheck (fs : FileState) : Option Nat → Bool
  | some cv => decide (fs.version ≠ cv)
  | none => false

/-- Embedding of FileNode.startMakingSinkInsideChange (file-node.ts lines
292-311): fail with version-mismatch when a supplied currentVersion
differs from the live version, otherwise compute the update params (new
version, attrs with mtime now) and the base object (none when truncating
or when the node was never persisted at version 0; otherwise the stored
object fetched from the store).  Returns (newVersion, ctime, mtime,
base). -/
def startMakingSinkInsideChange (fs : FileState) (truncate : Bool)
    (currentVersion : Option Nat) (now : Nat) :
    Except Thrown (Nat × Nat × Nat × Option StoredObj) :=
  if versionMismatchCheck fs currentVersion then
    .error (.fileExc (makeVersionMismatchExc fs.name))
  else
    if truncate ∨ fs.version = 0 then
      .ok (fs.version + 1, fs.ctime, now, none)
    else
      match fs.stored with
      | none => .error (.jsError "Object is not in storage")
      | some obj => .ok (fs.version + 1, fs.ctime, now, some obj)

/-- How the caller finishes the returned sink: done() after leaving some
final content in the sink, or done(err). -/
inductive SinkUse where
  | doneOk (finalContent : List Nat)
  | doneErr (err : String)
  deriving Repr, DecidableEq

deriving instance DecidableEq for Except

/-- Observable outcome of a whole writeSink interaction: the final node
state, the synchronous result of the writeSink call (the assigned version
or the rejection), the version that was assigned, the published events,
the value the pending new-size deferred was resolved to, the argument the
original sink done was called with (some none for done(), some (some e)
for done(err)), and whether the save was committed to the store. -/
structure WriteSinkOutcome where
  finalState : FileState
  result : Except Thrown Nat
  assignedVersion : Option Nat
  events : List FileEvent
  newSizeResolved : Option Nat
  originalDoneCalledWith : Option (Option String)
  saveCommitted : Bool
  deriving Repr, DecidableEq

/-- Embedding of FileNode.writeSink (file-node.ts lines 241-290) run to
completion with a given sink use.  If startMakingSinkInsideChange throws,
the race against the completion promise rethrows and the call rejects
with that error before any byte is written or version assigned.
Otherwise the call returns the sink and the new version synchronously;
the wrapped done then either resolves the new size with the sink size and
awaits the commit (done()), or resolves the new size to 0, calls the
original done with the error so the encryption subscription fails and the
save is cancelled, and swallows the completion failure (done(err)). -/
def writeSinkRun (fs : FileState) (truncate : Bool)
    (currentVersion : Option Nat) (now : Nat) (use : SinkUse) :
    WriteSinkOutcome :=
  match startMakingSinkInsideChange fs truncate currentVersion now with
  | .error e =>
      { finalState := fs, result := .error e, assignedVersion := none,
        events := [], newSizeResolved := none,
        originalDoneCalledWith := none, saveCommitted := false }
  | .ok (newVersion, ctime, mtime, _base) =>
      match use with
      | .doneOk finalContent =>
          let r := savingObjInsideChange fs newVersion ctime mtime
            (.ok finalContent)
          { finalState := r.1, result := .ok newVersion,
            assignedVersion := some newVersion, events := r.2.1,
            newSizeResolved := some finalContent.length,
            originalDoneCalledWith := some none, saveCommitted := r.2.2 }
      | .doneErr err =>
          let r := savingObjInsideChange fs newVersion ctime mtime
            (.error (.jsError err))
          { finalState := r.1, result := .ok newVersion,
            assignedVersion := some newVersion, events := r.2.1,
            newSizeResolved := some 0,
            originalDoneCalledWith := some (some err),
            saveCommitted := r.2.2 }

/-! ## Association lists: the JS Map with insertion order -/

/-- JS Map.get: the value of the first (and in a Map only) entry with the
key. -/
def assocLookup {κ α : Type} [DecidableEq κ] : List (κ × α) → κ → Option α
  | [], _ => none
  | (k, v) :: rest, key => if k = key then some v else assocLookup rest key

/-- JS Map.set: replace the value in place when the key is present, append
a new entry otherwise. -/
def assocSet {κ α : Type} [DecidableEq κ] : List (κ × α) → κ → α → List (κ × α)
  | [], key, v => [(key, v)]
  | (k, w) :: rest, key, v =>
      if k = key then (k, v) :: rest else (k, w) :: assocSet rest key v

/-- JS Map.delete: drop the entry with the key. -/
def assocDelete {κ α : Type} [DecidableEq κ] : List (κ × α) → κ → List (κ × α)
  | [], _ => []
  | (k, w) :: rest, key =>
      if k = key then rest else (k, w) :: assocDelete rest key

/-! ## The folder tree of the VFS

FolderNode, NodeInFS and the folder traversal live in folder-node.ts and
node-in-fs.ts, which are not among the available sources; the tree and
the traversal are modelled from the specification (sections 4.C, 4.E and
4.F) while the file leaves carry the FileState embedded from
file-node.ts. -/

/-- Modelled from the spec: the node graph of one filesystem, a closed sum
of file, folder and link nodes (section 3); a folder holds its object id
and the name-ordered child table, a file holds the embedded FileNode
state, a link holds its object id. -/
inductive FsTree where
  | file (fs : FileState)
  | folder (objId : String) (children : List (String × FsTree))
  | link (objId : String)

/-- Modelled from the spec: FileNode.makeForNew and the child creation of
section 4.E: a fresh file node starts at version 0 with attrs stamped now
and nothing yet persisted.  Its object id comes from
Storage.generateNewObjId, an external port whose produced value does not
affect byte or version behavior, so it is modelled as a fixed fresh
id. -/
def newFileState (name : String) (now : Nat) : FileState :=
  { name := name, objId := "new-obj", version := 0, size := 0, ctime := now,
    mtime := now, stored := none }

/-- Modelled from the spec combined with the source of V.getOrCreateFile
(part_000 lines 624-640) and FileNode.save: walk the folder path from
this folder, creating missing intermediate folders when create is set
(FolderNode.getFolderInThisSubTree, section 4.E); reaching a non-folder
fails not-directory, a missing segment without create fails not-found; at
the target folder get the file (an existing non-file child fails
not-file; a missing file without create fails not-found; an existing file
with exclusive fails already-exists as in part_000 lines 632-635) or
create it, then save the bytes with fileNodeSave.  The exception paths
are the full original path, as set by setExcPath at the call sites.
Returns the updated tree, the version returned by save, and the published
events. -/
def writeBytesAt (path : String) (now : Nat) (create exclusive : Bool)
    (B : List Nat) :
    FsTree → List String → String → Except Thrown (FsTree × Nat × List FileEvent)
  | .folder fid ch, [], fileName =>
      match assocLookup ch fileName with
      | some (.file fs) =>
          if exclusive then
            .error (.fileExc (makeFileException (some Code.alreadyExists) path none))
          else
            let r := fileNodeSave fs B now
            .ok (.folder fid (assocSet ch fileName (.file r.1)), r.2.1, r.2.2)
      | some _ =>
          .error (.fileExc (makeFileException (some Code.notFile) path none))
      | none =>
          if create then
            if fileName = "" then .error (.jsError "Bad file parameter(s) given")
            else
              let r := fileNodeSave (newFileState fileName now) B now
              .ok (.folder fid (assocSet ch fileName (.file r.1)), r.2.1, r.2.2)
          else
            .error (.fileExc (makeFileException (some Code.notFound) path none))
  | .folder fid ch, seg :: rest, fileName =>
      match assocLookup ch seg with
      | some child => do
          let r ← writeBytesAt path now create exclusive B child rest fileName
          pure (.folder fid (assocSet ch seg r.1), r.2)
      | none =>
          if create then do
            let r ← writeBytesAt path now create exclusive B
              (.folder "new-folder" []) rest fileName
            pure (.folder fid (assocSet ch seg r.1), r.2)
          else
            .error (.fileExc (makeFileException (some Code.notFound) path none))
  | _, _, _ =>
      .error (.fileExc (makeFileException (some Code.notDirectory) path none))

/-- Modelled from the spec combined with the source of V.readBytes
(part_000 lines 692-697) and FileNode.readBytes: walk the folder path
without creating anything (V.readBytes passes empty flags), get the file
at the target folder, and read its bytes with fileNodeReadBytes,
committing the possibly refreshed node state back into the tree. -/
def readBytesAt (stType : StorageType) (path : String)
    (start0 end0 : Option Int) :
    FsTree → List String → String →
    Except Thrown (FsTree × Option (List Nat) × Option Nat)
  | .folder fid ch, [], fileName =>
      match assocLookup ch fileName with
      | some (.file fs) => do
          let r ← fileNodeReadBytes stType fs start0 end0
          pure (.folder fid (assocSet ch fileName (.file r.1)), r.2)
      | some _ =>
          .error (.fileExc (makeFileException (some Code.notFile) path none))
      | none =>
          .error (.fileExc (makeFileException (some Code.notFound) path none))
  | .folder fid ch, seg :: rest, fileName =>
      match assocLookup ch seg with
      | some child => do
          let r ← readBytesAt stType path start0 end0 child rest fileName
          pure (.folder fid (assocSet ch seg r.1), r.2)
      | none =>
          .error (.fileExc (makeFileException (some Code.notFound) path none))
  | _, _, _ =>
      .error (.fileExc (makeFileException (some Code.notDirectory) path none))

/-- Embedding of V.writeBytes (part_000 lines 685-690) on the folder tree:
split the path as the module's split helper does (folder path plus last
segment as file name), then get-or-create and save.  An empty split (the
root path) reaches the FileNode constructor with no name, whose check
throws the bad-parameter Error (file-node.ts lines 139-140). -/
def vWriteBytes (root : FsTree) (path : String) (B : List Nat)
    (create exclusive : Bool) (now : Nat) :
    Except Thrown (FsTree × Nat × List FileEvent) :=
  match (splitPathIntoParts path).getLast? with
  | none => .error (.jsError "Bad file parameter(s) given")
  | some fileName =>
      writeBytesAt path now create exclusive B root
        (splitPathIntoParts path).dropLast fileName

/-- Embedding of V.readBytes (part_000 lines 692-697) on the folder tree:
split the path, resolve the file without creating, read all or part of
its bytes.  The root path has no file name and fails not-found. -/
def vReadBytes (stType : StorageType) (root : FsTree) (path : String)
    (start0 end0 : Option Int) :
    Except Thrown (FsTree × Option (List Nat) × Option Nat) :=
  match (splitPathIntoParts path).getLast? with
  | none => .error (.fileExc (makeFileException (some Code.notFound) path none))
  | some fileName =>
      readBytesAt stType path start0 end0 root
        (splitPathIntoParts path).dropLast fileName

/-! ## Subtree listing for watchTree (src/unnamed/part_000 lines 829-845) -/

mutual

/-- Embedding of recursiveIdAndPathList on the modelled folder tree: the
folder itself paired with its path first, then the entries contributed by
its child listing.  The source function is typed to take a folder; on
file and link nodes the embedding returns nothing. -/
def recursiveIdAndPathList : FsTree → String → List (String × String)
  | .folder objId ch, path =>
      (objId, path) :: recursiveIdAndPathChildren ch path
  | .file _, _ => []
  | .link _, _ => []

/-- The loop of recursiveIdAndPathList over the folder listing: the source
skips file and link children with an explicitly empty branch and recurses
only into folder children, under the slash-extended path. -/
def recursiveIdAndPathChildren :
    List (String × FsTree) → String → List (String × String)
  | [], _ => []
  | (name, child) :: rest, path =>
      match child with
      | .folder _ _ =>
          recursiveIdAndPathList child (path ++ "/" ++ name) ++
            recursiveIdAndPathChildren rest path
      | _ => recursiveIdAndPathChildren rest path

end

mutual

/-- Definition following the words of claim C9: the root contributes its
entry, recursion descends into folder children only, and every file and
link child of a traversed folder contributes its own entry without being
recursed into. -/
def claimIdAndPathList : FsTree → String → List (String × String)
  | .folder objId ch, path => (objId, path) :: claimIdAndPathChildren ch path
  | .file _, _ => []
  | .link _, _ => []

/-- Children loop of the claim-words definition: files and links contribute
their own entry, folders are recursed into. -/
def claimIdAndPathChildren :
    List (String × FsTree) → String → List (String × String)
  | [], _ => []
  | (name, .file fs) :: rest, path =>
      (fs.objId, path ++ "/" ++ name) :: claimIdAndPathChildren rest path
  | (name, .link lid) :: rest, path =>
      (lid, path ++ "/" ++ name) :: claimIdAndPathChildren rest path
  | (name, child) :: rest, path =>
      claimIdAndPathList child (path ++ "/" ++ name) ++
        claimIdAndPathChildren rest path

end

mutual

/-- Claim C9 as amended: only the folders of the subtree contribute
entries.  Stated with a different recursion shape than the source
(uniform descent into every child, files and links contributing nothing)
so that the equality with the source function is a real statement. -/
def folderIdAndPathList : FsTree → String → List (String × String)
  | .folder objId ch, path => (objId, path) :: folderIdAndPathChildren ch path
  | .file _, _ => []
  | .link _, _ => []

/-- Children loop of the amended definition: uniform descent. -/
def folderIdAndPathChildren :
    List (String × FsTree) → String → List (String × String)
  | [], _ => []
  | (name, child) :: rest, path =>
      folderIdAndPathList child (path ++ "/" ++ name) ++
        folderIdAndPathChildren rest path

end

/-! ## ObjIdToPathMap (src/unnamed/part_000 lines 752-826) -/

/-- Object identifiers of the store. -/
abbrev ObjId := String

/-- An entry of the pendingMoves map: the source writes exactly one of the
two optional fields when recording a pending move. -/
structure MoveInfo where
  newPath : Option String := none
  objId : Option ObjId := none
  deriving Repr, DecidableEq

/-- State of an ObjIdToPathMap: the objId-to-path map and the pending
moves keyed by move label. -/
structure ObjIdToPathMap where
  map : List (ObjId × String)
  moves : List (Nat × MoveInfo)
  deriving Repr, DecidableEq

/-- The folder and file event kinds that getPathCorrectingTreeMap
distinguishes; every other event kind (file-change and the like) falls
through the if chain unchanged. -/
inductive NodeEventKind where
  | removed
  | entryRenaming (oldName newName : String)
  | entryRemoval (name : String) (moveLabel : Option Nat)
  | entryAddition (name : String) (moveLabel : Option Nat)
  | otherEvent
  deriving Repr, DecidableEq

/-- A NodeEvent from the store: the emitting object, its parent when known,
the event and the path field the event itself carries (the node name
relative to the emitting node, used by the unknown-objId fallback). -/
structure NodeEvent where
  objId : ObjId
  parentObjId : Option ObjId
  kind : NodeEventKind
  path : String
  deriving Repr, DecidableEq

/-- Embedding of ObjIdToPathMap.findObjIdByPath: the first objId mapped to
the given path. -/
def findObjIdByPath : List (ObjId × String) → String → Option ObjId
  | [], _ => none
  | (objId, p) :: rest, path =>
      if p = path then some objId else findObjIdByPath rest path

/-- The non-null assertions moveInfo.newPath! and moveInfo.objId! of the
source read the raw JS property; were the field absent the undefined
value would be used.  The marker below stands for that undefined value;
the branches that read it are reached with the field present under every
theorem proved here. -/
def jsUndefined : String := "undefined"

/-- Embedding of ObjIdToPathMap.getPathCorrectingTreeMap (part_000 lines
769-816): when the emitting objId is known, correct the map (delete on
removed; remap the renamed child; pair entry-removal and entry-addition
through the pendingMoves map keyed by moveLabel) and return the known
path; when it is unknown but the parent is known and the event is not a
removal, derive the path from the parent and insert it; otherwise drop
the event. -/
def getPathCorrectingTreeMap (m : ObjIdToPathMap) (ev : NodeEvent) :
    ObjIdToPathMap × Option String :=
  match assocLookup m.map ev.objId with
  | some path =>
      match ev.kind with
      | .removed => ({ m with map := assocDelete m.map ev.objId }, some path)
      | .entryRenaming oldName newName =>
          (match findObjIdByPath m.map (path ++ "/" ++ oldName) with
            | some child =>
                { m with
                    map := assocSet m.map child (path ++ "/" ++ newName) }
            | none => m, some path)
      | .entryRemoval name moveLabel =>
          (match moveLabel with
            | some label =>
                (match findObjIdByPath m.map (path ++ "/" ++ name) with
                  | some child =>
                      (match assocLookup m.moves label with
                        | some moveInfo =>
                            { m with
                                map := assocSet m.map child
                                  (moveInfo.newPath.getD jsUndefined),
                                moves := assocDelete m.moves label }
                        | none =>
                            { m with
                                moves := assocSet m.moves label
                                  { objId := some child } })
                  | none => m)
            | none => m, some path)
      | .entryAddition name moveLabel =>
          (match moveLabel with
            | some label =>
                (match assocLookup m.moves label with
                  | some moveInfo =>
                      { m with
                          map := assocSet m.map
                            (moveInfo.objId.getD jsUndefined)
                            (path ++ "/" ++ name),
                          moves := assocDelete m.moves label }
                  | none =>
                      { m with
                          moves := assocSet m.moves label
                            { newPath := some (path ++ "/" ++ name) } })
            | none => m, some path)
      | .otherEvent => (m, some path)
  | none =>
      match (match ev.parentObjId with
              | some pid => assocLookup m.map pid
              | none => none) with
      | none => (m, none)
      | some parentPath =>
          match ev.kind with
          | .removed => (m, none)
          | _ =>
              ({ m with
                  map := assocSet m.map ev.objId
                    (parentPath ++ "/" ++ ev.path) },
                some (parentPath ++ "/" ++ ev.path))

/-- Processing of a delivered event sequence: the store delivers events in
order and the map correction is applied one event at a time. -/
def processNodeEvents (m : ObjIdToPathMap) (evs : List NodeEvent) :
    ObjIdToPathMap :=
  evs.foldl (fun acc ev => (getPathCorrectingTreeMap acc ev).1) m

/-- Modelled from the spec: FolderNode.moveChildTo (folder-node.ts is not
among the sources) makes a cross-folder move emit exactly one
entry-removal at the source folder and one entry-addition at the
destination folder, the two sharing a fresh move label (sections 4.E and
4.G). -/
def crossFolderMoveEvents (srcId dstId : ObjId) (name newName : String)
    (label : Nat) : List NodeEvent :=
  [ { objId := srcId, parentObjId := none,
      kind := .entryRemoval name (some label), path := name },
    { objId := dstId, parentObjId := none,
      kind := .entryAddition newName (some label), path := newName } ]

/-! ## XspFS closed state (src/unnamed/part_000 lines 88-182, 605-622) -/

/-- The underlying Storage port as an external object: the VFS holds a
reference and close must not close the storage itself. -/
structure StorageRef where
  closed : Bool
  deriving Repr, DecidableEq

/-- State of the versioned view V: the optional root folder node, dropped
by close. -/
structure VState where
  rootNode : Option FsTree

/-- State of an XspFS object: the optional storage reference, the
versioned view, the fs name and whether the close broadcast was
completed (the Broadcast helper is external; its done is terminal and a
second done is a no-op, spec section 9). -/
structure XspFSState where
  store : Option StorageRef
  v : VState
  name : String
  obsDone : Bool

/-- Embedding of V.getRootIfNotClosed (part_000 lines 618-622): a closed
view throws makeFileException(excCode.storageClosed, excPath), where the
property access excCode.storageClosed yields undefined because the Code
table has no such entry. -/
def getRootIfNotClosed (vs : VState) (excPath : String) :
    Except Thrown FsTree :=
  match vs.rootNode with
  | none =>
      .error (.fileExc (makeFileException storageClosedCodeAccess excPath none))
  | some root => .ok root

/-- Embedding of XspFS.close (part_000 lines 178-182) acting on the pair
of the fs object and the external storage object: v.close() drops the
root, the store reference is dropped, the close broadcast completes; the
storage object itself is untouched. -/
def xspClose (fs : XspFSState) (storage : StorageRef) :
    XspFSState × StorageRef :=
  ({ fs with v := { rootNode := none }, store := none, obsDone := true },
    storage)

/-- Embedding of V.writeBytes guarded by getRootIfNotClosed, as every
public path operation is. -/
def vWriteBytesOp (vs : VState) (path : String) (B : List Nat)
    (create exclusive : Bool) (now : Nat) :
    Except Thrown (VState × Nat) := do
  let root ← getRootIfNotClosed vs path
  let r ← vWriteBytes root path B create exclusive now
  pure ({ rootNode := some r.1 }, r.2.1)

/-- Embedding of V.readBytes guarded by getRootIfNotClosed. -/
def vReadBytesOp (stType : StorageType) (vs : VState) (path : String)
    (start0 end0 : Option Int) :
    Except Thrown (VState × Option (List Nat) × Option Nat) := do
  let root ← getRootIfNotClosed vs path
  let r ← vReadBytes stType root path start0 end0
  pure ({ rootNode := some r.1 }, r.2)

/-- Concrete state: the file node produced by saving the empty buffer into
a fresh file at time 0 (used by the C1 computations). -/
def sampleEmptyFile : FileState :=
  { name := "a", objId := "new-obj", version := 1, size := 0, ctime := 0,
    mtime := 0,
    stored := some { version := 1, content := [], ctime := 0, mtime := 0 } }

/-- Concrete state: the tree after writing the empty buffer to /a on a
fresh root. -/
def sampleTreeEmpty : FsTree := .folder "root" [("a", .file sampleEmptyFile)]

/-- Concrete state: the file node produced by saving the byte 7 into a
fresh file at time 0. -/
def sampleFileSeven : FileState :=
  { name := "b", objId := "new-obj", version := 1, size := 1, ctime := 0,
    mtime := 0,
    stored := some { version := 1, content := [7], ctime := 0, mtime := 0 } }

/-- Concrete state: the tree after writing the byte 7 to /a/b on a fresh
root. -/
def sampleTreeSeven : FsTree :=
  .folder "r" [("a", .folder "new-folder" [("b", .file sampleFileSeven)])]

/-! ## Theorems for the claims -/

/-- Helper: looking up the key just set yields the value just set. -/
theorem assocLookup_set_self {κ α : Type} [DecidableEq κ]
    (l : List (κ × α)) (k : κ) (v : α) :
    assocLookup (assocSet l k v) k = some v := by
  induction l with
  | nil => simp [assocSet, assocLookup]
  | cons hd tl ih =>
      obtain ⟨k2, v2⟩ := hd
      by_cases h : k2 = k
      · simp [assocSet, assocLookup, h]
      · simp [assocSet, assocLookup, h, ih]

/-- Helper: setting the same key to the same value twice equals setting it
once. -/
theorem assocSet_set_self {κ α : Type} [DecidableEq κ]
    (l : List (κ × α)) (k : κ) (v : α) :
    assocSet (assocSet l k v) k v = assocSet l k v := by
  induction l with
  | nil => simp [assocSet]
  | cons hd tl ih =>
      obtain ⟨k2, v2⟩ := hd
      by_cases h : k2 = k
      · simp [assocSet, h]
      · simp [assocSet, h, ih]

/-- Helper: deleting a freshly appended key restores the original map. -/
theorem assocDelete_set_of_none {κ α : Type} [DecidableEq κ]
    (l : List (κ × α)) (k : κ) (v : α) (h : assocLookup l k = none) :
    assocDelete (assocSet l k v) k = l := by
  induction l with
  | nil => simp [assocSet, assocDelete]
  | cons hd tl ih =>
      obtain ⟨k2, v2⟩ := hd
      by_cases hk : k2 = k
      · simp [assocLookup, hk] at h
      · simp [assocLookup, hk] at h
        simp [assocSet, assocDelete, hk, ih h]

/-- Helper for C1: reading a whole nonempty payload returns all its
bytes. -/
theorem persistReadBytes_full (B : List Nat) (hB : B ≠ []) :
    persistReadBytes B none none = .ok (some B) := by
  have hlen : 0 < B.length := List.length_pos.mpr hB
  have hpos : ¬ ((B.length : Int) ≤ 0) := by
    simp only [not_le]
    exact_mod_cast hlen
  unfold persistReadBytes checkNonNegParam
  simp [Bind.bind, Except.bind, Pure.pure, Except.pure, hpos, sliceBytes]

/-- Helper for C1: reading right after a save returns exactly the saved
bytes and the saved version, leaving the node state as the save left
it. -/
theorem fileNodeReadBytes_after_save (stType : StorageType) (fs : FileState)
    (B : List Nat) (now : Nat) (hty : stType = .synced ∨ stType = .local)
    (hB : B ≠ []) :
    fileNodeReadBytes stType (fileNodeSave fs B now).1 none none =
      .ok ((fileNodeSave fs B now).1, some B,
        some ((fileNodeSave fs B now).2.1)) := by
  have hfull := persistReadBytes_full B hB
  rcases hty with h | h <;> subst h <;>
    simp [fileNodeSave, savingObjInsideChange, fileNodeReadBytes, hfull,
      Bind.bind, Except.bind, Pure.pure, Except.pure]

/-- Helper for C1: the version returned by a save is the bumped live
version. -/
theorem fileNodeSave_version (fs : FileState) (B : List Nat) (now : Nat) :
    (fileNodeSave fs B now).2.1 = fs.version + 1 := rfl

/-- Helper for C1: a successful write through the folder walk is read back
along the same walk, returning the same tree, the written bytes and the
written version, which is at least 1. -/
theorem write_read_roundtrip_aux (stType : StorageType) (path : String)
    (now : Nat) (create exclusive : Bool) (B : List Nat)
    (hty : stType = .synced ∨ stType = .local) (hB : B ≠ []) :
    ∀ (segs : List String) (t t2 : FsTree) (fileName : String) (v : Nat)
      (events : List FileEvent),
    writeBytesAt path now create exclusive B t segs fileName =
      .ok (t2, v, events) →
    1 ≤ v ∧ readBytesAt stType path none none t2 segs fileName =
      .ok (t2, some B, some v) := by
  intro segs
  induction segs with
  | nil =>
      intro t t2 fileName v events hw
      match t with
      | .file fs => simp [writeBytesAt] at hw
      | .link lid => simp [writeBytesAt] at hw
      | .folder fid ch =>
          cases hlook : assocLookup ch fileName with
          | some child =>
              match child with
              | .file fs =>
                  cases hexcl : exclusive with
                  | true => simp [writeBytesAt, hlook, hexcl] at hw
                  | false =>
                      simp only [writeBytesAt, hlook, hexcl, Bool.false_eq_true,
                        if_false, Except.ok.injEq, Prod.mk.injEq] at hw
                      obtain ⟨ht2, hv, hev⟩ := hw
                      subst ht2
                      constructor
                      · rw [← hv, fileNodeSave_version]; omega
                      · simp only [readBytesAt, assocLookup_set_self]
                        rw [fileNodeReadBytes_after_save stType fs B now
                          (by tauto) hB]
                        simp [Bind.bind, Except.bind, Pure.pure, Except.pure,
                          assocSet_set_self, hv]
              | .folder cid cch => simp [writeBytesAt, hlook] at hw
              | .link lid => simp [writeBytesAt, hlook] at hw
          | none =>
              cases hcreate : create with
              | false => simp [writeBytesAt, hlook, hcreate] at hw
              | true =>
                  cases hname : decide (fileName = "") with
                  | true =>
                      have heq : fileName = "" := of_decide_eq_true hname
                      subst heq
                      simp [writeBytesAt, hlook, hcreate] at hw
                  | false =>
                      have hne : ¬ fileName = "" := of_decide_eq_false hname
                      simp only [writeBytesAt, hlook, hcreate, if_true,
                        if_neg hne, Except.ok.injEq, Prod.mk.injEq] at hw
                      obtain ⟨ht2, hv, hev⟩ := hw
                      subst ht2
                      constructor
                      · rw [← hv, fileNodeSave_version]; omega
                      · simp only [readBytesAt, assocLookup_set_self]
                        rw [fileNodeReadBytes_after_save stType
                          (newFileState fileName now) B now (by tauto) hB]
                        simp [Bind.bind, Except.bind, Pure.pure, Except.pure,
                          assocSet_set_self, hv]
  | cons seg rest ih =>
      intro t t2 fileName v events hw
      match t with
      | .file fs => simp [writeBytesAt] at hw
      | .link lid => simp [writeBytesAt] at hw
      | .folder fid ch =>
          cases hlook : assocLookup ch seg with
          | some child =>
              simp only [writeBytesAt, hlook, Bind.bind, Except.bind] at hw
              cases hrec : writeBytesAt path now create exclusive B child rest
                  fileName with
              | error e => rw [hrec] at hw; simp at hw
              | ok r =>
                  rw [hrec] at hw
                  obtain ⟨tc2, vc, evc⟩ := r
                  simp only [Pure.pure, Except.pure, Except.ok.injEq,
                    Prod.mk.injEq] at hw
                  obtain ⟨ht2, hv, hev⟩ := hw
                  subst ht2
                  obtain ⟨hv1, hread⟩ := ih child tc2 fileName vc evc hrec
                  refine ⟨by omega, ?_⟩
                  simp only [readBytesAt, assocLookup_set_self, Bind.bind,
                    Except.bind, hread, Pure.pure, Except.pure, hv,
                    assocSet_set_self]
          | none =>
              cases hcreate : create with
              | false => simp [writeBytesAt, hlook, hcreate] at hw
              | true =>
                  simp only [writeBytesAt, hlook, hcreate, if_true, Bind.bind,
                    Except.bind] at hw
                  cases hrec : writeBytesAt path now true exclusive B
                      (.folder "new-folder" []) rest fileName with
                  | error e => rw [hrec] at hw; simp at hw
                  | ok r =>
                      rw [hrec] at hw
                      obtain ⟨tc2, vc, evc⟩ := r
                      simp only [Pure.pure, Except.pure, Except.ok.injEq,
                        Prod.mk.injEq] at hw
                      obtain ⟨ht2, hv, hev⟩ := hw
                      subst ht2
                      have hrec2 : writeBytesAt path now create exclusive B
                          (.folder "new-folder" []) rest fileName =
                          .ok (tc2, vc, evc) := by rw [hcreate]; exact hrec
                      obtain ⟨hv1, hread⟩ :=
                        ih (.folder "new-folder" []) tc2 fileName vc evc hrec2
                      refine ⟨by omega, ?_⟩
                      simp only [readBytesAt, assocLookup_set_self, Bind.bind,
                        Except.bind, hread, Pure.pure, Except.pure, hv,
                        assocSet_set_self]

/-- Helper for C8: resolveStep keeps an accumulator free of empty, dot and
dot-dot segments. -/
theorem resolveStep_keeps_clean (acc : List String) (seg : String)
    (h : ∀ s ∈ acc, s ≠ "" ∧ s ≠ "." ∧ s ≠ "..") :
    ∀ s ∈ resolveStep acc seg, s ≠ "" ∧ s ≠ "." ∧ s ≠ ".." := by
  unfold resolveStep
  split_ifs with h1 h2
  · exact h
  · exact fun s hs => h s ((List.dropLast_sublist acc).subset hs)
  · intro s hs
    rcases List.mem_append.mp hs with hs | hs
    · exact h s hs
    · rcases List.mem_singleton.mp hs with rfl
      push_neg at h1
      exact ⟨h1.1, h1.2, h2⟩

/-- Helper for C8: a skipped segment leaves the accumulator unchanged. -/
theorem resolveStep_skip (acc : List String) (seg : String)
    (h : seg = "" ∨ seg = ".") : resolveStep acc seg = acc := by
  unfold resolveStep
  rw [if_pos h]

/-- Helper for C8: an ordinary segment is appended. -/
theorem resolveStep_push (acc : List String) (seg : String)
    (h1 : seg ≠ "") (h2 : seg ≠ ".") (h3 : seg ≠ "..") :
    resolveStep acc seg = acc ++ [seg] := by
  unfold resolveStep
  rw [if_neg (by push_neg; exact ⟨h1, h2⟩), if_neg h3]

/-- Helper for C8: folding the normalization over segments free of dot and
dot-dot appends exactly the nonempty segments. -/
theorem foldl_resolveStep_no_dots (segs : List String) :
    ∀ acc : List String, "." ∉ segs → ".." ∉ segs →
    segs.foldl resolveStep acc = acc ++ segs.filter (fun part => part ≠ "") := by
  induction segs with
  | nil => intro acc _ _; simp
  | cons seg rest ih =>
    intro acc hdot hdd
    have hseg1 : seg ≠ "." := fun h => hdot (h ▸ List.mem_cons_self seg rest)
    have hseg2 : seg ≠ ".." := fun h => hdd (h ▸ List.mem_cons_self seg rest)
    have hrest1 : "." ∉ rest := fun h => hdot (List.mem_cons_of_mem seg h)
    have hrest2 : ".." ∉ rest := fun h => hdd (List.mem_cons_of_mem seg h)
    by_cases hempty : seg = ""
    · subst hempty
      rw [List.foldl_cons, resolveStep_skip _ _ (Or.inl rfl),
        ih acc hrest1 hrest2]
      simp
    · rw [List.foldl_cons, resolveStep_push _ _ hempty hseg1 hseg2,
        ih (acc ++ [seg]) hrest1 hrest2]
      simp [hempty]

/-- C8 counterexample: splitPathIntoParts resolves dot and dot-dot segments
instead of keeping them as ordinary segment names, because posix.resolve
normalizes the path. -/
theorem c8_path_parsing_counterexample :
    splitPathIntoParts "a/../b" ≠ splitPathClaimWords "a/../b" ∧
    splitPathIntoParts "a/../b" = ["b"] ∧
    splitPathClaimWords "a/../b" = ["a", "..", "b"] ∧
    splitPathIntoParts "a/./b" = ["a", "b"] ∧
    splitPathClaimWords "a/./b" = ["a", ".", "b"] := by
  refine ⟨?_, by decide, by decide, by decide, by decide⟩
  decide

/-- C8 as amended: every path given to a VFS operation is split on slash
and empty segments are discarded, but dot and dot-dot segments ARE
resolved by posix normalization (a dot segment is dropped, a dot-dot
segment removes the preceding segment), so no result segment is ever
empty, dot or dot-dot; on paths whose raw segments contain no dot and no
dot-dot the function is exactly split-and-discard-empties. -/
theorem c8_path_parsing_amended (path : String) :
    (∀ s ∈ splitPathIntoParts path, s ≠ "" ∧ s ≠ "." ∧ s ≠ "..") ∧
    ("." ∉ splitOnSlash path → ".." ∉ splitOnSlash path →
      splitPathIntoParts path = splitPathClaimWords path) := by
  constructor
  · have base : ∀ s ∈ ([] : List String), s ≠ "" ∧ s ≠ "." ∧ s ≠ ".." := by
      intro s hs; cases hs
    have main : ∀ (segs : List String) (acc : List String),
        (∀ s ∈ acc, s ≠ "" ∧ s ≠ "." ∧ s ≠ "..") →
        ∀ s ∈ segs.foldl resolveStep acc, s ≠ "" ∧ s ≠ "." ∧ s ≠ ".." := by
      intro segs
      induction segs with
      | nil => intro acc h; exact h
      | cons seg rest ih =>
        intro acc h
        exact ih (resolveStep acc seg) (resolveStep_keeps_clean acc seg h)
    exact main (splitOnSlash path) [] base
  · intro hdot hdd
    unfold splitPathIntoParts splitPathClaimWords
    rw [foldl_resolveStep_no_dots (splitOnSlash path) [] hdot hdd]
    simp

/-- Helper for C6: a supplied start at or past the payload size yields no
bytes and no error, as long as the end bound does not fail the negativity
check first. -/
theorem persistReadBytes_past_end (content : List Nat) (s : Int)
    (end0 : Option Int) (hs : (content.length : Int) ≤ s)
    (hend : isNegParam end0 = false) :
    persistReadBytes content (some s) end0 = .ok none := by
  have h0 : (0 : Int) ≤ s := le_trans (Int.ofNat_nonneg _) hs
  have hneg : ¬ s < 0 := not_lt.mpr h0
  unfold persistReadBytes
  cases end0 with
  | none =>
      simp [checkNonNegParam, hneg, Bind.bind, Except.bind, Pure.pure, Except.pure, hs]
  | some e =>
      have hepos : ¬ e < 0 := by simpa [isNegParam] using hend
      simp [checkNonNegParam, hneg, hepos, Bind.bind, Except.bind, Pure.pure, Except.pure, hs]

/-- C6 counterexample: a read with the file size below the start bound
still raises when the supplied end is negative (the bound checks run
first), so the claim does not hold for every read_bytes call with
0 ≤ size ≤ start. -/
theorem c6_read_past_end_counterexample :
    fileNodeReadBytes .local
      { name := "f", objId := "o", version := 1, size := 0, ctime := 0,
        mtime := 0,
        stored := some { version := 1, content := [], ctime := 0, mtime := 0 } }
      (some 0) (some (-1)) =
      .error (.jsError (badParamMsg "end" (-1))) := by
  decide

/-- C6 as amended: for every file of size S and every read_bytes(start,
end) with 0 ≤ S ≤ start whose end bound is not a supplied negative
number, the call does not raise; it returns no bytes (the undefined
result, the representation of empty) together with the current stored
version, refreshing the cached node state exactly when the cached version
is behind the stored one.  The versioned result is the synced and local
storage behavior. -/
theorem c6_read_past_end_amended (stType : StorageType) (fs : FileState)
    (obj : StoredObj) (s : Int) (end0 : Option Int)
    (hty : stType = .synced ∨ stType = .local)
    (hst : fs.stored = some obj)
    (hs : (obj.content.length : Int) ≤ s)
    (hend : isNegParam end0 = false) :
    fileNodeReadBytes stType fs (some s) end0 =
      .ok ((if fs.version < obj.version then
          setUpdatedState fs obj.version obj.content.length obj.ctime obj.mtime
        else fs), none, some obj.version) := by
  unfold fileNodeReadBytes
  rw [hst]
  have hread := persistReadBytes_past_end obj.content s end0 hs hend
  by_cases hv : fs.version < obj.version
  · simp [hty, hv, hread, Bind.bind, Except.bind, Pure.pure, Except.pure]
  · simp [hty, hv, hread, Bind.bind, Except.bind, Pure.pure, Except.pure]

/-- C6 amended witness at a concrete input. -/
theorem c6_read_past_end_witness :
    fileNodeReadBytes .local
      { name := "f", objId := "o", version := 1, size := 2, ctime := 0,
        mtime := 0,
        stored := some { version := 1, content := [3, 4], ctime := 0, mtime := 0 } }
      (some 7) none =
      .ok ({ name := "f", objId := "o", version := 1, size := 2, ctime := 0, mtime := 0, stored := some { version := 1, content := [3, 4], ctime := 0, mtime := 0 } }, none, some 1) := by
  have h := c6_read_past_end_amended .local
    { name := "f", objId := "o", version := 1, size := 2, ctime := 0,
      mtime := 0,
      stored := some { version := 1, content := [3, 4], ctime := 0, mtime := 0 } }
    { version := 1, content := [3, 4], ctime := 0, mtime := 0 }
    7 none (Or.inr rfl) rfl (by decide) rfl
  simpa using h

/-- C7: for every read_bytes call where start or end is a supplied
negative number, the operation fails with the bad-argument error of the
source (the plain Error complaining that the parameter has a bad value),
thrown before the payload is read: a supplied negative start fails with
the start message, and a supplied negative end (when the start check
passes) fails with the end message. -/
theorem c7_negative_bounds (content : List Nat) (start0 end0 : Option Int) :
    (∀ s : Int, start0 = some s → s < 0 →
      persistReadBytes content start0 end0 =
        .error (.jsError (badParamMsg "start" s))) ∧
    (∀ e : Int, end0 = some e → e < 0 → isNegParam start0 = false →
      persistReadBytes content start0 end0 =
        .error (.jsError (badParamMsg "end" e))) := by
  constructor
  · rintro s rfl hs
    unfold persistReadBytes checkNonNegParam
    simp [hs, Bind.bind, Except.bind, Pure.pure, Except.pure]
  · rintro e rfl he hstart
    unfold persistReadBytes checkNonNegParam
    cases start0 with
    | none => simp [he, Bind.bind, Except.bind, Pure.pure, Except.pure]
    | some s =>
        have hs : ¬ s < 0 := by simpa [isNegParam] using hstart
        simp [hs, he, Bind.bind, Except.bind, Pure.pure, Except.pure]

/-- C7 witness at concrete inputs. -/
theorem c7_negative_bounds_witness :
    persistReadBytes [1, 2] (some (-1)) none =
      .error (.jsError (badParamMsg "start" (-1))) ∧
    persistReadBytes [1, 2] (some 0) (some (-2)) =
      .error (.jsError (badParamMsg "end" (-2))) :=
  ⟨(c7_negative_bounds [1, 2] (some (-1)) none).1 (-1) rfl (by decide),
    (c7_negative_bounds [1, 2] (some 0) (some (-2))).2 (-2) rfl (by decide)
      (by decide)⟩

/-- C5: a writeSink call with a supplied currentVersion different from the
live version fails with the version-mismatch file exception before any
byte is written and before a new version is assigned, whatever the sink
use would have been, and the node state is unchanged. -/
theorem c5_version_mismatch_precondition (fs : FileState) (truncate : Bool)
    (cv : Nat) (now : Nat) (use : SinkUse) (h : fs.version ≠ cv) :
    writeSinkRun fs truncate (some cv) now use =
      { finalState := fs,
        result := .error (.fileExc (makeVersionMismatchExc fs.name)),
        assignedVersion := none, events := [], newSizeResolved := none,
        originalDoneCalledWith := none, saveCommitted := false } := by
  unfold writeSinkRun startMakingSinkInsideChange versionMismatchCheck
  simp [h]

/-- C5 witness at a concrete input. -/
theorem c5_version_mismatch_witness :
    writeSinkRun
      { name := "a", objId := "o", version := 3, size := 1, ctime := 0,
        mtime := 0,
        stored := some { version := 3, content := [9], ctime := 0, mtime := 0 } }
      true (some 2) 7 (.doneOk [1]) =
      { finalState :=
          { name := "a", objId := "o", version := 3, size := 1, ctime := 0,
            mtime := 0,
            stored := some { version := 3, content := [9], ctime := 0, mtime := 0 } },
        result := .error (.fileExc (makeVersionMismatchExc "a")),
        assignedVersion := none, events := [], newSizeResolved := none,
        originalDoneCalledWith := none, saveCommitted := false } :=
  c5_version_mismatch_precondition
    { name := "a", objId := "o", version := 3, size := 1, ctime := 0,
      mtime := 0,
      stored := some { version := 3, content := [9], ctime := 0, mtime := 0 } }
    true 2 7 (.doneOk [1]) (by decide)

/-- C4: when the caller finishes the sink of a writeSink call with
done(err), the save is cancelled (nothing is committed to the store), the
original done of the sink is called with that error, the pending new-size
deferred is resolved to 0, the node keeps its live version, attrs and
size, and no file-change event is published for the abandoned version.
The hypotheses state that the sink was handed out: the currentVersion
precondition passed and the base object was obtainable. -/
theorem c4_midstream_failure_atomicity (fs : FileState) (truncate : Bool)
    (cv : Option Nat) (now : Nat) (err : String)
    (hv : versionMismatchCheck fs cv = false)
    (hb : truncate = true ∨ fs.version = 0 ∨ fs.stored.isSome = true) :
    writeSinkRun fs truncate cv now (.doneErr err) =
      { finalState := fs, result := .ok (fs.version + 1),
        assignedVersion := some (fs.version + 1), events := [],
        newSizeResolved := some 0,
        originalDoneCalledWith := some (some err),
        saveCommitted := false } := by
  by_cases htv : truncate = true ∨ fs.version = 0
  · have htv2 : (truncate : Prop) ∨ fs.version = 0 := by
      rcases htv with h | h
      · exact Or.inl (by simp [h])
      · exact Or.inr h
    simp [writeSinkRun, startMakingSinkInsideChange, hv, htv2,
      savingObjInsideChange]
  · have hsome : fs.stored.isSome = true := by
      rcases hb with h | h | h
      · exact absurd (Or.inl h) htv
      · exact absurd (Or.inr h) htv
      · exact h
    rcases Option.isSome_iff_exists.mp hsome with ⟨obj, hobj⟩
    have htv2 : ¬ ((truncate : Prop) ∨ fs.version = 0) := by
      intro hor
      rcases hor with h | h
      · exact htv (Or.inl (by simpa using h))
      · exact htv (Or.inr h)
    simp [writeSinkRun, startMakingSinkInsideChange, hv, htv2, hobj,
      savingObjInsideChange]

/-- C4 witness at a concrete input. -/
theorem c4_midstream_failure_witness :
    writeSinkRun
      { name := "a", objId := "o", version := 2, size := 1, ctime := 0,
        mtime := 0,
        stored := some { version := 2, content := [9], ctime := 0, mtime := 0 } }
      true none 5 (.doneErr "boom") =
      { finalState :=
          { name := "a", objId := "o", version := 2, size := 1, ctime := 0,
            mtime := 0,
            stored := some { version := 2, content := [9], ctime := 0, mtime := 0 } },
        result := .ok 3, assignedVersion := some 3, events := [],
        newSizeResolved := some 0,
        originalDoneCalledWith := some (some "boom"),
        saveCommitted := false } :=
  c4_midstream_failure_atomicity
    { name := "a", objId := "o", version := 2, size := 1, ctime := 0,
      mtime := 0,
      stored := some { version := 2, content := [9], ctime := 0, mtime := 0 } }
    true none 5 "boom" (by decide) (Or.inl rfl)

/-- C8 amended witness at a concrete input. -/
theorem c8_path_parsing_witness :
    (∀ s ∈ splitPathIntoParts "/x//y/", s ≠ "" ∧ s ≠ "." ∧ s ≠ "..") ∧
    splitPathIntoParts "/x//y/" = splitPathClaimWords "/x//y/" := by
  refine ⟨(c8_path_parsing_amended "/x//y/").1, ?_⟩
  exact (c8_path_parsing_amended "/x//y/").2 (by decide) (by decide)

/-- C10: for every code string, path and cause, makeFileException returns an
exception with runtimeException true, type file, and the given code, path
and cause; it sets exactly the one boolean flag that corresponds to the
code in the Code table (EEXIST sets alreadyExists, ENOENT sets notFound,
ENOTEMPTY sets notEmpty, and so on for all fifteen table entries, whose
code strings are pairwise distinct), and it sets no such flag when the
code matches no entry of the table. -/
theorem c10_make_file_exception (code : String) (path : String)
    (cause : Option String) :
    makeFileException (some code) path cause =
      { runtimeException := true
        type := "file"
        code := some code
        path := path
        cause := cause
        alreadyExists := decide (code = "EEXIST")
        notFound := decide (code = "ENOENT")
        isDirectory := decide (code = "EISDIR")
        notDirectory := decide (code = "ENOTDIR")
        notFile := decide (code = "ENOTFILE")
        notLink := decide (code = "not-link")
        endOfFile := decide (code = "EEOF")
        busy := decide (code = "EBUSY")
        ioError := decide (code = "EIO")
        notEmpty := decide (code = "ENOTEMPTY")
        opNotPermitted := decide (code = "EPERM")
        concurrentUpdate := decide (code = "concurrent-update")
        parsingError := decide (code = "parsing-error")
        notImplemented := decide (code = "ENOSYS")
        isEndless := decide (code = "is-endless")
        versionMismatch := false
        attrsNotEnabledInFS := false
        storageClosed := false } := by
  unfold makeFileException
  dsimp only
  simp only [Code, Option.some.injEq]
  by_cases h1 : code = "EEXIST"
  · rw [if_pos h1]; subst h1; rfl
  rw [if_neg h1]
  by_cases h2 : code = "ENOENT"
  · rw [if_pos h2]; subst h2; rfl
  rw [if_neg h2]
  by_cases h3 : code = "EISDIR"
  · rw [if_pos h3]; subst h3; rfl
  rw [if_neg h3]
  by_cases h4 : code = "ENOTDIR"
  · rw [if_pos h4]; subst h4; rfl
  rw [if_neg h4]
  by_cases h5 : code = "ENOTFILE"
  · rw [if_pos h5]; subst h5; rfl
  rw [if_neg h5]
  by_cases h6 : code = "not-link"
  · rw [if_pos h6]; subst h6; rfl
  rw [if_neg h6]
  by_cases h7 : code = "EEOF"
  · rw [if_pos h7]; subst h7; rfl
  rw [if_neg h7]
  by_cases h8 : code = "EBUSY"
  · rw [if_pos h8]; subst h8; rfl
  rw [if_neg h8]
  by_cases h9 : code = "EIO"
  · rw [if_pos h9]; subst h9; rfl
  rw [if_neg h9]
  by_cases h10 : code = "ENOTEMPTY"
  · rw [if_pos h10]; subst h10; rfl
  rw [if_neg h10]
  by_cases h11 : code = "EPERM"
  · rw [if_pos h11]; subst h11; rfl
  rw [if_neg h11]
  by_cases h12 : code = "concurrent-update"
  · rw [if_pos h12]; subst h12; rfl
  rw [if_neg h12]
  by_cases h13 : code = "parsing-error"
  · rw [if_pos h13]; subst h13; rfl
  rw [if_neg h13]
  by_cases h14 : code = "ENOSYS"
  · rw [if_pos h14]; subst h14; rfl
  rw [if_neg h14]
  by_cases h15 : code = "is-endless"
  · rw [if_pos h15]; subst h15; rfl
  rw [if_neg h15]
  simp [h1, h2, h3, h4, h5, h6, h7, h8, h9, h10, h11, h12, h13, h14, h15]

/-- C1 counterexample: writing the empty byte buffer succeeds with version
1, but reading the path back returns no bytes (the undefined result)
rather than the empty buffer, so the round trip does not return exactly B
for every byte buffer. -/
theorem c1_path_roundtrip_counterexample :
    vWriteBytes (.folder "root" []) "/a" [] true false 0 =
      .ok (sampleTreeEmpty, 1, [.fileChange "a" 1]) ∧
    vReadBytes .local sampleTreeEmpty "/a" none none =
      .ok (sampleTreeEmpty, none, some 1) ∧
    (∀ (t3 : FsTree) (ver : Option Nat),
      vReadBytes .local sampleTreeEmpty "/a" none none ≠
        .ok (t3, some ([] : List Nat), ver)) := by
  refine ⟨rfl, rfl, ?_⟩
  intro t3 ver h
  have hval : vReadBytes .local sampleTreeEmpty "/a" none none =
      .ok (sampleTreeEmpty, (none : Option (List Nat)), some 1) := rfl
  rw [hval] at h
  simp at h

/-- C1 as amended: for every nonempty byte buffer B and every path P on a
writable VFS with a synced or local storage, after a successful
writeBytes(P, B) with any create/exclusive flags, readBytes(P) returns
exactly the bytes B together with the version v of the write, and v ≥ 1
(for the empty buffer the read returns the undefined no-bytes result
instead, as the counterexample shows). -/
theorem c1_path_roundtrip_amended (stType : StorageType) (root t2 : FsTree)
    (path : String) (B : List Nat) (create exclusive : Bool) (now v : Nat)
    (events : List FileEvent)
    (hty : stType = .synced ∨ stType = .local) (hB : B ≠ [])
    (hw : vWriteBytes root path B create exclusive now = .ok (t2, v, events)) :
    1 ≤ v ∧ vReadBytes stType t2 path none none = .ok (t2, some B, some v) := by
  unfold vWriteBytes at hw
  split at hw
  · simp at hw
  · rename_i fileName heq
    unfold vReadBytes
    rw [heq]
    exact write_read_roundtrip_aux stType path now create exclusive B hty hB
      (splitPathIntoParts path).dropLast root t2 fileName v events hw

/-- C1 amended witness at a concrete input. -/
theorem c1_path_roundtrip_witness :
    1 ≤ 1 ∧
    vReadBytes .local sampleTreeSeven "/a/b" none none =
      .ok (sampleTreeSeven, some [7], some 1) :=
  c1_path_roundtrip_amended .local (.folder "r" []) sampleTreeSeven
    "/a/b" [7] true false 0 1 [.fileChange "b" 1]
    (Or.inr rfl) (by decide) rfl

/-- Helper for C9: the source listing loop equals the uniform-descent
loop, by strong induction on the size of the child list. -/
theorem recChildren_eq_folderChildren :
    ∀ (n : Nat) (ch : List (String × FsTree)) (path : String),
      sizeOf ch ≤ n →
      recursiveIdAndPathChildren ch path = folderIdAndPathChildren ch path := by
  intro n
  induction n with
  | zero =>
      intro ch path h
      cases ch with
      | nil => rfl
      | cons hd tl =>
          exfalso
          have h1 : 1 ≤ sizeOf (hd :: tl) := by
            simp only [List.cons.sizeOf_spec]
            omega
          omega
  | succ n ih =>
      intro ch path h
      match ch with
      | [] => rfl
      | (name, child) :: rest =>
          have hrest : sizeOf rest ≤ n := by
            simp only [List.cons.sizeOf_spec, Prod.mk.sizeOf_spec] at h
            omega
          match child with
          | .file fs =>
              simp only [recursiveIdAndPathChildren, folderIdAndPathChildren,
                folderIdAndPathList, List.nil_append]
              exact ih rest path hrest
          | .link lid =>
              simp only [recursiveIdAndPathChildren, folderIdAndPathChildren,
                folderIdAndPathList, List.nil_append]
              exact ih rest path hrest
          | .folder cid cch =>
              have hcch : sizeOf cch ≤ n := by
                simp only [List.cons.sizeOf_spec, Prod.mk.sizeOf_spec,
                  FsTree.folder.sizeOf_spec] at h
                omega
              simp only [recursiveIdAndPathChildren, folderIdAndPathChildren,
                recursiveIdAndPathList, folderIdAndPathList]
              rw [ih cch (path ++ "/" ++ name) hcch, ih rest path hrest]

/-- Helper for C9: the source listing equals the uniform-descent listing
on every tree. -/
theorem recTree_eq_folderTree (t : FsTree) (p : String) :
    recursiveIdAndPathList t p = folderIdAndPathList t p := by
  match t with
  | .file fs => rfl
  | .link lid => rfl
  | .folder objId ch =>
      simp only [recursiveIdAndPathList, folderIdAndPathList]
      rw [recChildren_eq_folderChildren (sizeOf ch) ch p le_rfl]

/-- C9 counterexample: a folder with one file child; the file child
contributes no entry to the initial listing (the empty branch of the
source skips it), contrary to the claim words, which demand the entry
(fileObjId, "./f"). -/
theorem c9_tree_init_counterexample :
    recursiveIdAndPathList
      (.folder "r" [("f", .file (newFileState "f" 0))]) "." = [("r", ".")] ∧
    claimIdAndPathList
      (.folder "r" [("f", .file (newFileState "f" 0))]) "." =
      [("r", "."), ("new-obj", "./f")] ∧
    recursiveIdAndPathList
      (.folder "r" [("f", .file (newFileState "f" 0))]) "." ≠
      claimIdAndPathList
        (.folder "r" [("f", .file (newFileState "f" 0))]) "." := by
  have h1 : recursiveIdAndPathList
      (.folder "r" [("f", .file (newFileState "f" 0))]) "." = [("r", ".")] := by
    simp [recursiveIdAndPathList, recursiveIdAndPathChildren]
  have h2 : claimIdAndPathList
      (.folder "r" [("f", .file (newFileState "f" 0))]) "." =
      [("r", "."), ("new-obj", "./f")] := by
    simp [claimIdAndPathList, claimIdAndPathChildren, newFileState]
  refine ⟨h1, h2, ?_⟩
  rw [h1, h2]
  decide

/-- C9 as amended: the initial objId-to-path listing of a watched subtree
starts with (rootObjId, "."), and recursion descends into folders only:
file and link children contribute no entries at all (such nodes enter the
map lazily through the parent-objId fallback of the event correction on
their first event). -/
theorem c9_tree_init_amended (objId : String) (ch : List (String × FsTree)) :
    (recursiveIdAndPathList (.folder objId ch) ".").head? =
      some (objId, ".") ∧
    (∀ (t : FsTree) (p : String),
      recursiveIdAndPathList t p = folderIdAndPathList t p) := by
  constructor
  · simp [recursiveIdAndPathList]
  · exact recTree_eq_folderTree

/-- C3 counterexample: a cross-folder move of an object that is not in the
objId-to-path map — the situation of every file and link child, which
initialization skips (the empty isFile/isLink branch of
recursiveIdAndPathList), and of every node created after subscription.
The source folder (objId s, path .) and the destination folder (objId d,
path ./d) are tracked, the moved child objId c is not.  After the
entry-removal and the entry-addition sharing move label 7 have been
processed, in either arrival order, the moved objId still maps to
nothing and the pending move label is left behind, so the map does not
converge to the new path ./d/g as the claim demands. -/
theorem c3_move_label_counterexample :
    assocLookup (processNodeEvents
      { map := [("s", "."), ("d", "./d")], moves := [] }
      (crossFolderMoveEvents "s" "d" "f" "g" 7)).map "c" = none ∧
    (processNodeEvents
      { map := [("s", "."), ("d", "./d")], moves := [] }
      (crossFolderMoveEvents "s" "d" "f" "g" 7)).moves =
      [(7, { newPath := some "./d/g", objId := none })] ∧
    assocLookup (processNodeEvents
      { map := [("s", "."), ("d", "./d")], moves := [] }
      ((crossFolderMoveEvents "s" "d" "f" "g" 7).reverse)).map "c" = none ∧
    (processNodeEvents
      { map := [("s", "."), ("d", "./d")], moves := [] }
      ((crossFolderMoveEvents "s" "d" "f" "g" 7).reverse)).moves =
      [(7, { newPath := some "./d/g", objId := none })] :=
  ⟨rfl, rfl, rfl, rfl⟩

/-- C3 as amended: for a cross-folder move whose moved object is tracked
in the objId-to-path map under its old path (a folder reached at
initialization, or a node previously added by the parent-objId fallback
of the event correction), the pair of events of the move (exactly one
entry-removal and one entry-addition sharing a move label; the emission
side is modelled from the spec) makes the map converge: after both
events have been processed the moved objId maps to its new path and the
pending move label is cleared, for either arrival order.  An untracked
moved object stays unmapped and the pending label remains, as the
counterexample shows. -/
theorem c3_move_label_convergence (m : ObjIdToPathMap)
    (srcId dstId childId : ObjId) (srcPath dstPath name newName : String)
    (label : Nat)
    (hsrc : assocLookup m.map srcId = some srcPath)
    (hdst : assocLookup m.map dstId = some dstPath)
    (hchild : findObjIdByPath m.map (srcPath ++ "/" ++ name) = some childId)
    (hlabel : assocLookup m.moves label = none) :
    (assocLookup (processNodeEvents m
        (crossFolderMoveEvents srcId dstId name newName label)).map childId =
        some (dstPath ++ "/" ++ newName) ∧
      (processNodeEvents m
        (crossFolderMoveEvents srcId dstId name newName label)).moves =
        m.moves) ∧
    (assocLookup (processNodeEvents m
        ((crossFolderMoveEvents srcId dstId name newName label).reverse)).map
        childId = some (dstPath ++ "/" ++ newName) ∧
      (processNodeEvents m
        ((crossFolderMoveEvents srcId dstId name newName label).reverse)).moves =
        m.moves) := by
  have hstep1 : getPathCorrectingTreeMap m
      { objId := srcId, parentObjId := none,
        kind := .entryRemoval name (some label), path := name } =
      ({ m with moves := assocSet m.moves label { objId := some childId } },
        some srcPath) := by
    simp only [getPathCorrectingTreeMap, hsrc, hchild, hlabel]
  have hstep2 : getPathCorrectingTreeMap
      { m with moves := assocSet m.moves label { objId := some childId } }
      { objId := dstId, parentObjId := none,
        kind := .entryAddition newName (some label), path := newName } =
      ({ m with
          map := assocSet m.map childId (dstPath ++ "/" ++ newName),
          moves := assocDelete (assocSet m.moves label
            { objId := some childId }) label }, some dstPath) := by
    simp only [getPathCorrectingTreeMap, hdst, assocLookup_set_self,
      Option.getD_some]
  have hstep1r : getPathCorrectingTreeMap m
      { objId := dstId, parentObjId := none,
        kind := .entryAddition newName (some label), path := newName } =
      ({ m with
          moves := assocSet m.moves label
            { newPath := some (dstPath ++ "/" ++ newName) } },
        some dstPath) := by
    simp only [getPathCorrectingTreeMap, hdst, hlabel]
  have hstep2r : getPathCorrectingTreeMap
      { m with
          moves := assocSet m.moves label
            { newPath := some (dstPath ++ "/" ++ newName) } }
      { objId := srcId, parentObjId := none,
        kind := .entryRemoval name (some label), path := name } =
      ({ m with
          map := assocSet m.map childId (dstPath ++ "/" ++ newName),
          moves := assocDelete (assocSet m.moves label
            { newPath := some (dstPath ++ "/" ++ newName) }) label },
        some srcPath) := by
    simp only [getPathCorrectingTreeMap, hsrc, hchild, assocLookup_set_self,
      Option.getD_some]
  constructor
  · constructor
    · simp only [processNodeEvents, crossFolderMoveEvents, List.foldl_cons,
        List.foldl_nil, hstep1, hstep2]
      exact assocLookup_set_self m.map childId (dstPath ++ "/" ++ newName)
    · simp only [processNodeEvents, crossFolderMoveEvents, List.foldl_cons,
        List.foldl_nil, hstep1, hstep2]
      exact assocDelete_set_of_none m.moves label
        { objId := some childId } hlabel
  · constructor
    · simp only [processNodeEvents, crossFolderMoveEvents, List.reverse_cons,
        List.reverse_nil, List.nil_append, List.cons_append, List.foldl_cons,
        List.foldl_nil, hstep1r, hstep2r]
      exact assocLookup_set_self m.map childId (dstPath ++ "/" ++ newName)
    · simp only [processNodeEvents, crossFolderMoveEvents, List.reverse_cons,
        List.reverse_nil, List.nil_append, List.cons_append, List.foldl_cons,
        List.foldl_nil, hstep1r, hstep2r]
      exact assocDelete_set_of_none m.moves label
        { newPath := some (dstPath ++ "/" ++ newName) } hlabel

/-- C3 witness at a concrete input. -/
theorem c3_move_label_convergence_witness :
    (assocLookup (processNodeEvents
        { map := [("s", "."), ("d", "./d"), ("c", "./f")], moves := [] }
        (crossFolderMoveEvents "s" "d" "f" "g" 7)).map "c" =
        some "./d/g" ∧
      (processNodeEvents
        { map := [("s", "."), ("d", "./d"), ("c", "./f")], moves := [] }
        (crossFolderMoveEvents "s" "d" "f" "g" 7)).moves = [] ∧
    (assocLookup (processNodeEvents
        { map := [("s", "."), ("d", "./d"), ("c", "./f")], moves := [] }
        ((crossFolderMoveEvents "s" "d" "f" "g" 7).reverse)).map "c" =
        some "./d/g" ∧
      (processNodeEvents
        { map := [("s", "."), ("d", "./d"), ("c", "./f")], moves := [] }
        ((crossFolderMoveEvents "s" "d" "f" "g" 7).reverse)).moves = [])) := by
  have h := c3_move_label_convergence
    { map := [("s", "."), ("d", "./d"), ("c", "./f")], moves := [] }
    "s" "d" "c" "." "./d" "f" "g" 7 rfl rfl rfl rfl
  exact ⟨h.1.1, h.1.2, h.2.1, h.2.2⟩

/-- C2 code bug: after close() every path operation rejects with a file
exception carrying the offending path, a second close is a no-op, and
the storage object is untouched by close; but the thrown exception is not
identifiable as storage-closed: its code is undefined and it carries no
storageClosed flag, because the Code table of file.ts (lines 17-34)
defines no storageClosed entry, while part_000 lines 108-109 and 618-622
pass excCode.storageClosed to makeFileException expecting one.  The
concrete run below exhibits the divergence. -/
theorem c2_storage_closed_code_bug :
    vReadBytesOp .local { rootNode := none } "/a" none none =
      .error (.fileExc { runtimeException := true, type := "file", code := none, path := "/a", cause := none }) ∧
    vWriteBytesOp { rootNode := none } "/a" [1] true false 0 =
      .error (.fileExc { runtimeException := true, type := "file", code := none, path := "/a", cause := none }) ∧
    (makeFileException storageClosedCodeAccess "/a" none).code = none ∧
    (makeFileException storageClosedCodeAccess "/a" none).storageClosed
      = false ∧
    (makeFileException storageClosedCodeAccess "/a" none).path = "/a" ∧
    xspClose
      (xspClose
        { store := some { closed := false },
          v := { rootNode := some (.folder "root" []) }, name := "",
          obsDone := false }
        { closed := false }).1
      { closed := false } =
      xspClose
        { store := some { closed := false },
          v := { rootNode := some (.folder "root" []) }, name := "",
          obsDone := false }
        { closed := false } ∧
    (xspClose
      { store := some { closed := false },
        v := { rootNode := some (.folder "root" []) }, name := "",
        obsDone := false }
      { closed := false }).2 = { closed := false } := by
  exact ⟨rfl, rfl, rfl, rfl, rfl, rfl, rfl⟩

end XspFsProof
